import Mathlib

/-!
# Verification of the Google Tasks takeout re-import scripts

Shallow embedding of the resumable batch export pipeline of
`continueProcess` / `getTaskListIdByName` / `createTrigger` /
`deleteExistingTriggers` (the report-producing variant of the Apps Script
utility) plus the notes logic of `createTasksFromSheet` from
`json-to-sheet-to-tasks-exporter.js`.

Modelling conventions:
* Spreadsheet cells are strings; JavaScript truthiness of a cell or of a
  string-or-null value is `optTruthy` below (`null` and `""` are falsy).
* The durable script properties (checkpoint store) are modelled by passing
  the state record through; `JSON.stringify`/`JSON.parse` round-trips of
  string maps and of the report object are identity and are modelled as such.
* The remote Google Tasks service is an external collaborator.  Two models
  are used: an oracle-style model (`CreateOutcome`/`ListOutcome`) feeding the
  resolver, used for claims about `getTaskListIdByName` in isolation, and a
  deterministic stateful model (`Remote`, parametrised by a `RemoteCfg` of
  deterministic failure predicates and a date parser), used for whole-pipeline
  claims that assume the service is not changed from outside between batches.
* `try { ... } catch (e) { ... }` around a remote call is modelled by the
  call returning an outcome value; the catch branch is the failure case.
-/

namespace GTasks

/-- Whitespace for the purposes of JavaScript `String.prototype.trim` (the
characters occurring in the data: space, tab, newline, carriage return). -/
def isJsSpace (c : Char) : Bool := c = ' ' ∨ c = '\t' ∨ c = '\n' ∨ c = '\r'

/-- JavaScript `s.trim()`: strip leading and trailing whitespace.  (Defined
on the character list so that concrete instances evaluate by `decide`.) -/
def jsTrim (s : String) : String :=
  ⟨((s.data.dropWhile isJsSpace).reverse.dropWhile isJsSpace).reverse⟩

/-- JavaScript `c.toLowerCase()` on one character (ASCII case mapping, which
covers the data and the literals compared against). -/
def jsCharToLower (c : Char) : Char :=
  if 65 ≤ c.toNat ∧ c.toNat ≤ 90 then Char.ofNat (c.toNat + 32) else c

/-- JavaScript `s.toLowerCase()`. -/
def jsToLower (s : String) : String := ⟨s.data.map jsCharToLower⟩

/-- Whether the first list is a prefix of the second (Boolean, structurally
recursive). -/
def listPrefixB : List Char → List Char → Bool
  | [], _ => true
  | _ :: _, [] => false
  | a :: as, b :: bs => decide (a = b) && listPrefixB as bs

/-- JavaScript `s.startsWith(p)`. -/
def jsStartsWith (s p : String) : Bool := listPrefixB p.data s.data

/-- JavaScript truthiness of a string-or-null value (`null` and `""` falsy). -/
def optTruthy : Option String → Bool
  | none => false
  | some s => if s = "" then false else true

/-- One spreadsheet data row, restricted to the columns the export reads
(`list_title`, `title`, `id`, `status`, `due`, `links`).  An absent column is
configured in `HeadersCfg`; an empty cell is `""`. -/
structure Row where
  list_title : String
  title : String
  id : String
  status : String
  due : String
  links : String
deriving DecidableEq, Repr

/-- Which optional header columns were found (`headers.indexOf(...) !== -1`).
The `title` and `list_title` columns are required: when either is missing the
run aborts before the row loop, so the row-level definitions assume both. -/
structure HeadersCfg where
  hasId : Bool
  hasStatus : Bool
  hasDue : Bool
  hasLinks : Bool
deriving DecidableEq, Repr

/-- An outbound task as built by the row loop (`Tasks.newTask()` plus the
fields the script assigns). -/
structure Task where
  title : String
  status : Option String
  due : Option String
  notes : Option String
deriving DecidableEq, Repr

/-- One remote task list as returned by `Tasks.Tasklists.list().items`. -/
structure RemoteList where
  title : String
  id : String
deriving DecidableEq, Repr

/-- The local name→id cache (`taskListCache`), a string-keyed object used
only through lookup and assignment. -/
abbrev Cache := String → Option String

/-- Assignment `cache[name] = id` (object property assignment). -/
def setC (c : Cache) (k v : String) : Cache :=
  fun t => if t = k then some v else c t

/-- Outcome of one `Tasks.Tasklists.insert` call: either a returned task list
object, or a thrown error (the `catch` branch). -/
inductive CreateOutcome where
  | ok (lst : RemoteList)
  | err
deriving DecidableEq, Repr

/-- Outcome of one `Tasks.Tasklists.list()` call (`items` of the response;
a missing `items` field is `ok []`), or a thrown error. -/
inductive ListOutcome where
  | ok (lists : List RemoteList)
  | err
deriving DecidableEq, Repr

/-- Trace of the externally visible actions of the resolver. -/
inductive RemoteOp where
  | createList (name : String)
  | sleepMs (ms : Nat)
  | listAll
deriving DecidableEq, Repr

/-- The body of `getTaskListIdByName` after the cache test failed: attempt
the create, and on a thrown error sleep 2000 ms, re-fetch all lists and
linearly scan for the first exact title match (lines 697-731 of the source).
Returns the resolved id (or `none`), the updated cache, and the trace of
remote calls and sleeps performed. -/
def resolveAfterCreate (name : String) (cache : Cache) (co : CreateOutcome)
    (lo : ListOutcome) : Option String × Cache × List RemoteOp :=
  match co with
  | CreateOutcome.ok createdList =>
      if createdList.id = "" then
        -- `Failed to create task list "<name>" - API did not return an ID.`
        (none, cache, [RemoteOp.createList name])
      else
        (some createdList.id, setC cache name createdList.id,
          [RemoteOp.createList name])
  | CreateOutcome.err =>
      match lo with
      | ListOutcome.ok lists =>
          match lists.find? (fun l => l.title = name) with
          | some l =>
              (some l.id, setC cache name l.id,
                [RemoteOp.createList name, RemoteOp.sleepMs 2000,
                 RemoteOp.listAll])
          | none =>
              (none, cache,
                [RemoteOp.createList name, RemoteOp.sleepMs 2000,
                 RemoteOp.listAll])
      | ListOutcome.err =>
          (none, cache,
            [RemoteOp.createList name, RemoteOp.sleepMs 2000,
             RemoteOp.listAll])

/-- Resolver `getTaskListIdByName(name, cache)` (lines 692-732), with the outcomes of
the at most one create call and at most one list call supplied as oracle
values.  `if (cache[name]) return cache[name];` is the truthiness test on the
cached value. -/
def getTaskListIdByName (name : String) (cache : Cache) (co : CreateOutcome)
    (lo : ListOutcome) : Option String × Cache × List RemoteOp :=
  if optTruthy (cache name) then (cache name, cache, [])
  else resolveAfterCreate name cache co lo

/-- Deterministic model of the remote Google Tasks service state: the task
lists (in enumeration order), the tasks inserted so far (list id paired with
the task), and a counter supplying fresh list ids. -/
structure Remote where
  lists : List RemoteList
  tasks : List (String × Task)
  counter : Nat

/-- Deterministic environment: failure predicates for the two kinds of remote
create calls and the host's date parsing.  Determinism (the outcome is a pure
function of the current remote state and arguments) is the formal rendering
of the claims' premise that the remote service is not changed from outside
between batches.  `parseDate s` models
`new Date(s)` / `isNaN(getTime())` / `toISOString()`: `some iso` for a
parseable value, `none` for an unparseable one. -/
structure RemoteCfg where
  createFails : Remote → String → Bool
  insertFails : Remote → String → Task → Bool
  parseDate : String → Option String

/-- Call `Tasks.Tasklists.insert` against the deterministic remote: on success the
service appends a list titled `name` with a fresh id and returns it; on
failure it throws and the state is unchanged. -/
def remoteCreate (rc : RemoteCfg) (r : Remote) (name : String) :
    CreateOutcome × Remote :=
  if rc.createFails r name then (CreateOutcome.err, r)
  else
    let fid := "L" ++ Nat.repr r.counter
    (CreateOutcome.ok ⟨name, fid⟩,
      { r with lists := r.lists ++ [⟨name, fid⟩], counter := r.counter + 1 })

/-- Resolver `getTaskListIdByName` run against the deterministic remote:
`Tasks.Tasklists.list()` returns the current lists (the claims assume no
outside interference, so enumeration is reliable and read-only). -/
def resolveR (rc : RemoteCfg) (name : String) (cache : Cache) (r : Remote) :
    Option String × Cache × Remote :=
  if optTruthy (cache name) then (cache name, cache, r)
  else
    let cr := remoteCreate rc r name
    let res := resolveAfterCreate name cache cr.1 (ListOutcome.ok cr.2.lists)
    (res.1, res.2.1, cr.2)

/-- Per-list report counters, field order as in the source literal
`{ completed: 0, needsAction: 0, total: 0 }`. -/
structure Stats where
  completed : Nat
  needsAction : Nat
  total : Nat
deriving DecidableEq, Repr

/-- In-memory state of one run of the export pipeline: the parsed
`taskListCache`, `lastKnownListTitle`, parsed `executionReport`, and the
remote service state.  Persisting to and re-reading from the script
properties is the identity on this data. -/
structure St where
  cache : Cache
  lastKnown : Option String
  report : List (String × Stats)
  remote : Remote

/-- Lookup `reportData[name]` on the report object. -/
def getStats : List (String × Stats) → String → Option Stats
  | [], _ => none
  | (k, v) :: rest, t => if k = t then some v else getStats rest t

/-- Assignment `reportData[name] = stats`: assignment on a string-keyed object keeps an
existing key in place and appends a new key at the end (JS insertion order). -/
def setStats : List (String × Stats) → String → Stats → List (String × Stats)
  | [], t, v => [(t, v)]
  | (k, w) :: rest, t, v =>
      if k = t then (k, v) :: rest else (k, w) :: setStats rest t v

/-- Report update on a successful `Tasks.Tasks.insert` (lines 658-667):
initialise the list's counters if absent, then bump `completed` or
`needsAction` according to the submitted status, then bump `total`. -/
def bumpReport (report : List (String × Stats)) (nm : String) (task : Task) :
    List (String × Stats) :=
  let report1 :=
    match getStats report nm with
    | none => setStats report nm ⟨0, 0, 0⟩
    | some _ => report
  let st := (getStats report1 nm).getD ⟨0, 0, 0⟩
  let st2 :=
    if task.status = some "completed" then
      { st with completed := st.completed + 1 }
    else
      { st with needsAction := st.needsAction + 1 }
  setStats report1 nm { st2 with total := st2.total + 1 }

/-- Lines 608-611: remember the last seen list title.  The `list_title` cell
is read as `row[listTitleIndex] ? row[listTitleIndex].toString().trim() :
null`, and `lastKnownListTitle` is reassigned only when that trimmed value is
truthy. -/
def markerUpdate (last : Option String) (row : Row) : Option String :=
  let listTitleFromCell :=
    if row.list_title = "" then none else some (jsTrim row.list_title)
  if optTruthy listTitleFromCell then listTitleFromCell else last

/-- Line 614: `row[titleIndex] ? row[titleIndex].toString().trim() : null`. -/
def titleFromCell (row : Row) : Option String :=
  if row.title = "" then none else some (jsTrim row.title)

/-- Line 615: `idIndex !== -1 && row[idIndex] ? ... .trim() : null`. -/
def idFromCell (cfg : HeadersCfg) (row : Row) : Option String :=
  if cfg.hasId ∧ row.id ≠ "" then some (jsTrim row.id) else none

/-- JavaScript `a || b` on string-or-null values (`""` is falsy). -/
def jsOrS : Option String → Option String → Option String
  | none, b => b
  | some s, b => if s = "" then b else some s

/-- Line 616: `taskTitleFromCell || taskIdFromCell`. -/
def finalTaskTitle (cfg : HeadersCfg) (row : Row) : Option String :=
  jsOrS (titleFromCell row) (idFromCell cfg row)

/-- Lines 650-652: `if (linksIndex !== -1 && row[linksIndex]) task.notes =
`Link: ${row[linksIndex]}`;` — note: no exception for the value `starred`
here. -/
def taskNotes (hasLinks : Bool) (links : String) : Option String :=
  if hasLinks ∧ links ≠ "" then some ("Link: " ++ links) else none

/-- Lines 634-652: build the outbound task from the row (title already
resolved via `finalTaskTitle`). -/
def buildTask (rc : RemoteCfg) (cfg : HeadersCfg) (row : Row)
    (finalTitle : String) : Task :=
  { title := finalTitle
    status :=
      if cfg.hasStatus ∧ row.status ≠ "" ∧ jsTrim (jsToLower row.status) = "completed"
      then some "completed" else none
    due :=
      if cfg.hasDue ∧ row.due ≠ "" then rc.parseDate row.due else none
    notes := taskNotes cfg.hasLinks row.links }

/-- The per-row log line / outcome.  Exactly one event is produced per row;
events carrying a list name record the effective list name the row used. -/
inductive Ev where
  | skippedNoList
  | skippedNoTitle (listName : String)
  | skippedListRow (listName : String)
  | resolveFailed (listName : String) (title : String)
  | insertFailed (listName : String) (task : Task)
  | created (listName : String) (task : Task)
deriving DecidableEq, Repr

/-- The effective list name a row's processing used (`none` for a row skipped
because no list title had been seen yet). -/
def Ev.usedList : Ev → Option String
  | Ev.skippedNoList => none
  | Ev.skippedNoTitle n => some n
  | Ev.skippedListRow n => some n
  | Ev.resolveFailed n _ => some n
  | Ev.insertFailed n _ => some n
  | Ev.created n _ => some n

/-- The body of the row loop of `continueProcess` (lines 604-676) for one
row: update the carried list title, resolve the title with id fallback, skip
on the three guard conditions, otherwise resolve the list id and attempt the
task insert, updating the report only on success.  The source's
`if (!cond) { ...; continue; }` guards appear as `if cond then rest else
skip`. -/
def rowStep (rc : RemoteCfg) (cfg : HeadersCfg) (s : St) (row : Row) :
    St × Ev :=
  let lastKnown' := markerUpdate s.lastKnown row
  let taskListName := lastKnown'
  let finalTitle := finalTaskTitle cfg row
  let s0 : St := { s with lastKnown := lastKnown' }
  if optTruthy taskListName then
    let nm := taskListName.getD ""
    if optTruthy finalTitle then
      let t := finalTitle.getD ""
      if jsStartsWith (jsToLower t) "list:" then (s0, Ev.skippedListRow nm)
      else
        let rr := resolveR rc nm s.cache s.remote
        let s1 : St := { s0 with cache := rr.2.1, remote := rr.2.2 }
        if optTruthy rr.1 then
          let lid := (rr.1).getD ""
          let task := buildTask rc cfg row t
          if rc.insertFails s1.remote lid task then
            (s1, Ev.insertFailed nm task)
          else
            ({ s1 with
                remote := { s1.remote with
                             tasks := s1.remote.tasks ++ [(lid, task)] }
                report := bumpReport s1.report nm task },
              Ev.created nm task)
        else (s1, Ev.resolveFailed nm t)
    else (s0, Ev.skippedNoTitle nm)
  else (s0, Ev.skippedNoList)

/-- The row loop over one batch slice, collecting the per-row events. -/
def runRows (rc : RemoteCfg) (cfg : HeadersCfg) (s : St) :
    List Row → St × List Ev
  | [] => (s, [])
  | row :: rest =>
      let p := rowStep rc cfg s row
      let q := runRows rc cfg p.1 rest
      (q.1, p.2 :: q.2)

/-- Lines 575-584: best-effort cache refresh at the start of a batch —
`taskLists.forEach(list => { taskListCache[list.title] = list.id; })`. -/
def refreshCache (c : Cache) (lists : List RemoteList) : Cache :=
  lists.foldl (fun acc l => setC acc l.title l.id) c

/-- The cache refresh applied to the run state (the deterministic
`Tasks.Tasklists.list()` succeeds and is read-only). -/
def refreshSt (s : St) : St :=
  { s with cache := refreshCache s.cache s.remote.lists }

/-- Iterated `continueProcess` invocations driven by the self-rescheduling trigger,
abstracted over the batch sizes: each invocation first checks the terminal
condition `startRow > lastRow` (no rows remain), otherwise refreshes the
cache, processes `Math.min(batchSize, lastRow - startRow + 1)` rows
(`rows.take k`), persists the checkpoint (identity on the modelled state) and
reschedules.  The source fixes every size to `BATCH_SIZE`; the resume claim
quantifies over arbitrary size sequences. -/
def batchRun (rc : RemoteCfg) (cfg : HeadersCfg) :
    List Nat → List Row → St → St
  | [], _, s => s
  | k :: ks, rows, s =>
      if rows.isEmpty then s
      else batchRun rc cfg ks (rows.drop k)
        (runRows rc cfg (refreshSt s) (rows.take k)).1

/-- State at the start of a fresh run (`createTasksFromCurrentSheet` deletes
every checkpoint property): empty cache, no carried list title, empty report;
the remote service is in an arbitrary initial state `r0`. -/
def initSt (r0 : Remote) : St :=
  { cache := fun _ => none, lastKnown := none, report := [], remote := r0 }

/-- The most recent truthy (trimmed) `list_title` cell value in a row
sequence, starting from a carried value: the reference for the
carry-forward invariant. -/
def lastMarker (init : Option String) (rows : List Row) : Option String :=
  rows.foldl markerUpdate init

/-- Constant `const BATCH_SIZE = 100`. -/
def BATCH_SIZE : Nat := 100

/-- Line 601: `Math.min(BATCH_SIZE, lastRow - startRow + 1)` (row numbers are
1-based and `startRow ≤ lastRow` on this code path). -/
def rowsToProcess (startRow lastRow : Nat) : Nat :=
  min BATCH_SIZE (lastRow - startRow + 1)

/-- Line 678: `const nextStartRow = startRow + rowsToProcess;` — persisted as
`lastProcessedRow` for the next batch. -/
def nextStartRow (startRow lastRow : Nat) : Nat :=
  startRow + rowsToProcess startRow lastRow

/-- The sheet row numbers the batch reads: `getRange(startRow, 1,
rowsToProcess, lastColumn)`, i.e. `currentRowNumber = startRow + j` for
`j < rowsToProcess` (lines 602-605). -/
def readRowNumbers (startRow lastRow : Nat) : List Nat :=
  (List.range (rowsToProcess startRow lastRow)).map (fun j => startRow + j)

/-- A pending host trigger, identified by its handler function name. -/
structure Trig where
  handler : String
deriving DecidableEq, Repr

/-- Constant `const SCRIPT_TRIGGER_HANDLER = 'continueProcess'`. -/
def SCRIPT_TRIGGER_HANDLER : String := "continueProcess"

/-- Lines 748-755: delete every project trigger whose handler function is
`SCRIPT_TRIGGER_HANDLER`, keeping all others. -/
def deleteExistingTriggers (ts : List Trig) : List Trig :=
  ts.filter (fun t => decide (t.handler ≠ SCRIPT_TRIGGER_HANDLER))

/-- Lines 737-743: `createTrigger` first deletes the existing triggers for
this handler, then registers exactly one new time-based trigger (≈60 s from
now) for it. -/
def createTrigger (ts : List Trig) : List Trig :=
  deleteExistingTriggers ts ++ [⟨SCRIPT_TRIGGER_HANDLER⟩]

/-- The notes logic of `createTasksFromSheet`
(`src/json-to-sheet-to-tasks-exporter.js` lines 109-112): set notes only for
a non-blank links string that does not lowercase to the literal `starred`,
with the value trimmed. -/
def sheetExporterNotes (links : String) : Option String :=
  if jsTrim links ≠ "" ∧ jsToLower links ≠ "starred" then
    some ("Link: " ++ jsTrim links)
  else none

/-- The report invariant: every list entry satisfies
`total = completed + needsAction`. -/
def ReportOK (rep : List (String × Stats)) : Prop :=
  ∀ p ∈ rep, p.2.total = p.2.completed + p.2.needsAction

/-- The id of the last occurrence of title `t` in an enumeration of remote
lists — the value `taskListCache[t]` holds after a refresh (`forEach`
assignment, later entries win). -/
def lastAssoc : List RemoteList → String → Option String
  | [], _ => none
  | l :: rest, t =>
      match lastAssoc rest t with
      | some i => some i
      | none => if l.title = t then some l.id else none

/-- The cache agrees with a remote enumeration: every remotely known title is
cached with its (last-listed) remote id.  This holds right after a cache
refresh and is preserved by the row loop. -/
def CacheConsistent (c : Cache) (lists : List RemoteList) : Prop :=
  ∀ t i, lastAssoc lists t = some i → c t = some i

/-- All remote list ids are non-empty strings (the remote service never
returns a blank id; freshly created ids are `"L" ++ counter`). -/
def IdsNonEmpty (lists : List RemoteList) : Prop :=
  ∀ l ∈ lists, l.id ≠ ""



/-! ## Basic lemmas -/

theorem optTruthy_none : optTruthy none = false := rfl

theorem optTruthy_some_of_ne {x : String} (h : x ≠ "") :
    optTruthy (some x) = true := by
  unfold optTruthy
  simp [h]

theorem optTruthy_some_empty : optTruthy (some "") = false := rfl

theorem optTruthy_getD {m : Option String} (h : optTruthy m = true) :
    some (m.getD "") = m := by
  cases m with
  | none => simp [optTruthy] at h
  | some s => rfl

theorem ne_empty_of_optTruthy {m : Option String} (h : optTruthy m = true) :
    m.getD "" ≠ "" := by
  cases m with
  | none => simp [optTruthy] at h
  | some s =>
      simp only [Option.getD_some]
      intro hs
      rw [hs] at h
      simp [optTruthy] at h

/-! ## Claim C3: monotonic cursor -/

/-- C3 (confirmed): for a batch that processes at least one row
(`startRow ≤ lastRow`), the persisted next-row value `nextStartRow` is
strictly greater than the `startRow` the batch started from, and every sheet
row number the batch reads is at or above the prior persisted cursor
`startRow` (the batch never re-reads rows below it). -/
theorem nextStartRow_strict_mono (startRow lastRow : Nat)
    (h : startRow ≤ lastRow) :
    startRow < nextStartRow startRow lastRow ∧
      ∀ r ∈ readRowNumbers startRow lastRow, startRow ≤ r := by
  constructor
  · have h1 : 1 ≤ rowsToProcess startRow lastRow := by
      unfold rowsToProcess BATCH_SIZE
      omega
    unfold nextStartRow
    omega
  · intro r hr
    unfold readRowNumbers at hr
    simp only [List.mem_map, List.mem_range] at hr
    obtain ⟨j, _, rfl⟩ := hr
    omega

/-- Witness for `nextStartRow_strict_mono` at `startRow = 2`,
`lastRow = 351`. -/
theorem nextStartRow_strict_mono_witness :
    2 ≤ 351 ∧
      (2 < nextStartRow 2 351 ∧ ∀ r ∈ readRowNumbers 2 351, 2 ≤ r) :=
  ⟨by decide, nextStartRow_strict_mono 2 351 (by decide)⟩

/-! ## Claim C9: trigger rescheduling is idempotent -/

/-- C9 (confirmed): after `createTrigger`, exactly one pending trigger for
this job's handler identity exists, whatever the prior trigger population
was, and calling it again still leaves exactly one — duplicate triggers
never accumulate. -/
theorem createTrigger_unique (ts : List Trig) :
    ((createTrigger ts).filter
        (fun t => decide (t.handler = SCRIPT_TRIGGER_HANDLER))).length = 1 ∧
      ((createTrigger (createTrigger ts)).filter
          (fun t => decide (t.handler = SCRIPT_TRIGGER_HANDLER))).length
        = 1 := by
  have key : ∀ us : List Trig,
      ((createTrigger us).filter
        (fun t => decide (t.handler = SCRIPT_TRIGGER_HANDLER))).length = 1 := by
    intro us
    unfold createTrigger deleteExistingTriggers
    rw [List.filter_append, List.filter_filter]
    simp
  exact ⟨key ts, key (createTrigger ts)⟩

/-! ## Claim C6: notes from the links field -/

/-- C6 (counterexample): in `continueProcess` there is no exception for the
literal links value `starred`: a task row whose links cell is `starred` is
submitted with notes `Link: starred`, where the claim says no notes are set.
The configuration has every column, the cache and the remote service already
know list `Work`, and no remote call fails. -/
theorem taskNotes_starred_counterexample :
    (rowStep ⟨fun _ _ => false, fun _ _ _ => false, fun _ => none⟩
        ⟨true, true, true, true⟩
        { cache := fun t => if t = "Work" then some "id1" else none,
          lastKnown := none, report := [],
          remote := ⟨[⟨"Work", "id1"⟩], [], 0⟩ }
        ⟨"Work", "Buy milk", "", "", "", "starred"⟩).2
      = Ev.created "Work" ⟨"Buy milk", none, none, some "Link: starred"⟩ ∧
      taskNotes true "starred" ≠ none := by
  exact ⟨by decide, by decide⟩

/-- C6 (amended): in the batch exporter `continueProcess`, whenever the links
column exists and the cell is non-empty the task's notes are the cell with
the fixed `Link: ` prefix — including when the cell is the literal `starred`;
the notes stay unset when the column is absent or the cell empty.  The
`starred` exception of the claim exists only in the single-sheet exporter
`createTasksFromSheet`: there, notes are the trimmed links value with the
`Link: ` prefix when the links string is non-blank and does not lowercase to
`starred`, and no notes are set when it lowercases to `starred`. -/
theorem taskNotes_characterization :
    (∀ links, links ≠ "" → taskNotes true links = some ("Link: " ++ links)) ∧
    (∀ hasLinks links,
        taskNotes hasLinks "" = none ∧ taskNotes false links = none) ∧
    (∀ links, jsTrim links ≠ "" → jsToLower links ≠ "starred" →
        sheetExporterNotes links = some ("Link: " ++ jsTrim links)) ∧
    (∀ links, jsToLower links = "starred" → sheetExporterNotes links = none) := by
  refine ⟨?_, ?_, ?_, ?_⟩
  · intro links h
    unfold taskNotes
    simp [h]
  · intro hasLinks links
    constructor
    · unfold taskNotes
      simp
    · unfold taskNotes
      simp
  · intro links h1 h2
    unfold sheetExporterNotes
    simp [h1, h2]
  · intro links h
    unfold sheetExporterNotes
    simp [h]

/-- Witness for `taskNotes_characterization` at the links values `starred`
and `" http://x "`. -/
theorem taskNotes_characterization_witness :
    taskNotes true "starred" = some "Link: starred" ∧
      sheetExporterNotes "starred" = none ∧
      sheetExporterNotes " http://x " = some "Link: http://x" := by
  have h := taskNotes_characterization
  refine ⟨?_, ?_, ?_⟩
  · rw [h.1 "starred" (by decide)]
    decide
  · rw [h.2.2.2 "starred" (by decide)]
  · rw [h.2.2.1 " http://x " (by decide) (by decide)]
    decide

/-! ## Claim C4: cache hits are remote-call free -/

/-- C4 (counterexample): a name can be present in the cache with the (falsy)
value `""`; `if (cache[name])` then fails and the resolver does issue a
remote create call for a name that is present in the cache. -/
theorem getTaskListIdByName_cached_counterexample :
    ((fun t => if t = "A" then some "" else none : Cache) "A").isSome = true ∧
      (getTaskListIdByName "A" (fun t => if t = "A" then some "" else none)
          (CreateOutcome.ok ⟨"A", "L9"⟩) (ListOutcome.ok [])).2.2
        = [RemoteOp.createList "A"] := by
  exact ⟨by decide, by decide⟩

/-- C4 (amended): for every name cached with a non-empty (truthy) id, the
resolver returns that id immediately, leaves the cache unchanged and issues
no remote call at all, for any behaviour of the remote service; hence
repeated calls for the same name never issue a create call. -/
theorem getTaskListIdByName_cache_hit (name : String) (cache : Cache)
    (id : String) (hc : cache name = some id) (hne : id ≠ "") :
    ∀ co lo, getTaskListIdByName name cache co lo = (some id, cache, []) := by
  intro co lo
  have ht : optTruthy (cache name) = true := by
    rw [hc]
    exact optTruthy_some_of_ne hne
  unfold getTaskListIdByName
  rw [ht]
  simp [hc]

/-- Witness for `getTaskListIdByName_cache_hit` on a one-entry cache. -/
theorem getTaskListIdByName_cache_hit_witness :
    getTaskListIdByName "A" (fun t => if t = "A" then some "L1" else none)
        CreateOutcome.err ListOutcome.err
      = (some "L1", fun t => if t = "A" then some "L1" else none, []) :=
  getTaskListIdByName_cache_hit "A"
    (fun t => if t = "A" then some "L1" else none) "L1" (by decide) (by decide)
    CreateOutcome.err ListOutcome.err

/-! ## Claim C5: fallback after a failed create -/

/-- C5 (counterexample): a create call that returns without an id is a
failure to create the list (the source logs `Failed to create task list ... -
API did not return an ID.`), yet the resolver returns failure immediately:
no backoff, no list enumeration and no scan happen, even though an exact
name match exists remotely.  So the claimed fallback does not apply to every
create failure. -/
theorem getTaskListIdByName_noid_counterexample :
    getTaskListIdByName "B" (fun _ => none)
        (CreateOutcome.ok ⟨"B", ""⟩) (ListOutcome.ok [⟨"B", "X7"⟩])
      = (none, (fun _ => none : Cache), [RemoteOp.createList "B"]) ∧
      RemoteOp.listAll ∉ [RemoteOp.createList "B"] := by
  exact ⟨rfl, by decide⟩

/-- C5 (amended): for a name not truthily cached, the fallback applies to
every create failure that is a thrown error: the resolver sleeps the fixed
2000 ms backoff, lists all remote lists and linearly scans for the first
exact title match; on a match it writes the id through to the cache and
returns it, and on no match (or a failing list call) it returns failure with
the cache unchanged.  A create call that returns without an id instead fails
immediately with no backoff and no fallback. -/
theorem getTaskListIdByName_create_failure (name : String) (cache : Cache)
    (h : optTruthy (cache name) = false) :
    (∀ lists l, lists.find? (fun x => x.title = name) = some l →
        getTaskListIdByName name cache CreateOutcome.err (ListOutcome.ok lists)
          = (some l.id, setC cache name l.id,
              [RemoteOp.createList name, RemoteOp.sleepMs 2000,
               RemoteOp.listAll])) ∧
    (∀ lists, lists.find? (fun x => x.title = name) = none →
        getTaskListIdByName name cache CreateOutcome.err (ListOutcome.ok lists)
          = (none, cache,
              [RemoteOp.createList name, RemoteOp.sleepMs 2000,
               RemoteOp.listAll])) ∧
    (getTaskListIdByName name cache CreateOutcome.err ListOutcome.err
        = (none, cache,
            [RemoteOp.createList name, RemoteOp.sleepMs 2000,
             RemoteOp.listAll])) ∧
    (∀ lst lo, lst.id = "" →
        getTaskListIdByName name cache (CreateOutcome.ok lst) lo
          = (none, cache, [RemoteOp.createList name])) := by
  refine ⟨?_, ?_, ?_, ?_⟩
  · intro lists l hfind
    unfold getTaskListIdByName
    rw [h]
    unfold resolveAfterCreate
    simp [hfind]
  · intro lists hfind
    unfold getTaskListIdByName
    rw [h]
    unfold resolveAfterCreate
    simp [hfind]
  · unfold getTaskListIdByName
    rw [h]
    simp [resolveAfterCreate]
  · intro lst lo hid
    unfold getTaskListIdByName
    rw [h]
    unfold resolveAfterCreate
    simp [hid]

/-- Witness for `getTaskListIdByName_create_failure` on an empty cache: the
match and no-match fallback cases and the thrown-error list case. -/
theorem getTaskListIdByName_create_failure_witness :
    getTaskListIdByName "C" (fun _ => none) CreateOutcome.err
        (ListOutcome.ok [⟨"D", "X0"⟩, ⟨"C", "X1"⟩])
      = (some "X1", setC (fun _ => none) "C" "X1",
          [RemoteOp.createList "C", RemoteOp.sleepMs 2000,
           RemoteOp.listAll]) ∧
      getTaskListIdByName "C" (fun _ => none) CreateOutcome.err
          (ListOutcome.ok [])
        = (none, fun _ => none,
            [RemoteOp.createList "C", RemoteOp.sleepMs 2000,
             RemoteOp.listAll]) ∧
      getTaskListIdByName "C" (fun _ => none) CreateOutcome.err
          ListOutcome.err
        = (none, fun _ => none,
            [RemoteOp.createList "C", RemoteOp.sleepMs 2000,
             RemoteOp.listAll]) := by
  have h := getTaskListIdByName_create_failure "C" (fun _ => none) (by decide)
  exact ⟨h.1 [⟨"D", "X0"⟩, ⟨"C", "X1"⟩] ⟨"C", "X1"⟩ (by decide),
    h.2.1 [] (by decide), h.2.2.1⟩

/-! ## Claim C7: title fallback to the id column -/

theorem jsTrim_ne_empty {s : String} (h : jsTrim s ≠ "") : s ≠ "" := by
  intro hs
  rw [hs] at h
  exact h rfl

theorem finalTaskTitle_of_title_blank {cfg : HeadersCfg} {row : Row}
    (h : jsTrim row.title = "") :
    finalTaskTitle cfg row = idFromCell cfg row := by
  unfold finalTaskTitle titleFromCell jsOrS
  by_cases ht : row.title = ""
  · simp [ht]
  · simp [ht, h]

theorem idFromCell_of_present {cfg : HeadersCfg} {row : Row}
    (hhas : cfg.hasId = true) (hid : row.id ≠ "") :
    idFromCell cfg row = some (jsTrim row.id) := by
  unfold idFromCell
  simp [hhas, hid]

theorem finalTaskTitle_falsy_of_blank {cfg : HeadersCfg} {row : Row}
    (h1 : jsTrim row.title = "") (h2 : jsTrim row.id = "") :
    optTruthy (finalTaskTitle cfg row) = false := by
  rw [finalTaskTitle_of_title_blank h1]
  unfold idFromCell
  by_cases hc : cfg.hasId = true ∧ row.id ≠ ""
  · simp [hc, h2, optTruthy]
  · simp [hc, optTruthy]

/-- C7 (confirmed): (1) when the trimmed title cell is empty and the id
column is present with a non-blank trimmed value, the resolved task title is
the trimmed id; (2) such a row, when a list name is established, it is not a
`list:` marker, the list resolves from the cache and the remote insert
succeeds, is submitted as a task whose title is the trimmed id; (3) the
submitted task's title is exactly the resolved final title; (4) a row whose
trimmed title and trimmed id are both empty is skipped: no task is created,
the report and the remote service are untouched. -/
theorem rowStep_title_fallback (rc : RemoteCfg) (cfg : HeadersCfg) (s : St)
    (row : Row) :
    (jsTrim row.title = "" → cfg.hasId = true → jsTrim row.id ≠ "" →
        finalTaskTitle cfg row = some (jsTrim row.id)) ∧
    (∀ nm lid,
        jsTrim row.title = "" → cfg.hasId = true → jsTrim row.id ≠ "" →
        markerUpdate s.lastKnown row = some nm → nm ≠ "" →
        jsStartsWith (jsToLower (jsTrim row.id)) "list:" = false →
        s.cache nm = some lid → lid ≠ "" →
        rc.insertFails s.remote lid (buildTask rc cfg row (jsTrim row.id))
          = false →
        (rowStep rc cfg s row).2
          = Ev.created nm (buildTask rc cfg row (jsTrim row.id))) ∧
    (∀ t, (buildTask rc cfg row t).title = t) ∧
    (jsTrim row.title = "" → jsTrim row.id = "" →
        (rowStep rc cfg s row).1.report = s.report ∧
        (rowStep rc cfg s row).1.remote = s.remote ∧
        ((rowStep rc cfg s row).2 = Ev.skippedNoList ∨
          (rowStep rc cfg s row).2
            = Ev.skippedNoTitle ((markerUpdate s.lastKnown row).getD ""))) := by
  refine ⟨?_, ?_, ?_, ?_⟩
  · intro h1 h2 h3
    rw [finalTaskTitle_of_title_blank h1,
      idFromCell_of_present h2 (jsTrim_ne_empty h3)]
  · intro nm lid h1 h2 h3 hm hnm hpre hcache hlid hins
    have hft : finalTaskTitle cfg row = some (jsTrim row.id) := by
      rw [finalTaskTitle_of_title_blank h1,
        idFromCell_of_present h2 (jsTrim_ne_empty h3)]
    simp only [rowStep, resolveR, hm, hft, hcache,
      optTruthy_some_of_ne hnm, optTruthy_some_of_ne h3,
      optTruthy_some_of_ne hlid, Option.getD_some, if_true, hpre,
      Bool.false_eq_true, if_false]
    simp [hins]
  · intro t
    rfl
  · intro h1 h4
    have hfalsy := @finalTaskTitle_falsy_of_blank cfg row h1 h4
    cases hb : optTruthy (markerUpdate s.lastKnown row) with
    | false =>
        refine ⟨?_, ?_, Or.inl ?_⟩ <;>
          simp [rowStep, hb]
    | true =>
        refine ⟨?_, ?_, Or.inr ?_⟩ <;>
          simp [rowStep, hb, hfalsy]

/-- Witness for `rowStep_title_fallback`: a row with blank title and id
`task42 ` is submitted with title `task42`; a row with both blank is
skipped. -/
theorem rowStep_title_fallback_witness :
    (rowStep ⟨fun _ _ => false, fun _ _ _ => false, fun _ => none⟩
        ⟨true, true, true, true⟩
        { cache := fun t => if t = "Work" then some "id1" else none,
          lastKnown := some "Work", report := [],
          remote := ⟨[⟨"Work", "id1"⟩], [], 0⟩ }
        ⟨"", "  ", "task42 ", "", "", ""⟩).2
      = Ev.created "Work" ⟨"task42", none, none, none⟩ ∧
      (rowStep ⟨fun _ _ => false, fun _ _ _ => false, fun _ => none⟩
          ⟨true, true, true, true⟩
          { cache := fun t => if t = "Work" then some "id1" else none,
            lastKnown := some "Work", report := [],
            remote := ⟨[⟨"Work", "id1"⟩], [], 0⟩ }
          ⟨"", "  ", "  ", "", "", ""⟩).1.report = [] := by
  constructor
  · have h := (rowStep_title_fallback
        ⟨fun _ _ => false, fun _ _ _ => false, fun _ => none⟩
        ⟨true, true, true, true⟩
        { cache := fun t => if t = "Work" then some "id1" else none,
          lastKnown := some "Work", report := [],
          remote := ⟨[⟨"Work", "id1"⟩], [], 0⟩ }
        ⟨"", "  ", "task42 ", "", "", ""⟩).2.1 "Work" "id1"
      (by decide) (by decide) (by decide) (by decide) (by decide) (by decide)
      (by decide) (by decide) (by decide)
    rw [h]
    decide
  · have h := (rowStep_title_fallback
        ⟨fun _ _ => false, fun _ _ _ => false, fun _ => none⟩
        ⟨true, true, true, true⟩
        { cache := fun t => if t = "Work" then some "id1" else none,
          lastKnown := some "Work", report := [],
          remote := ⟨[⟨"Work", "id1"⟩], [], 0⟩ }
        ⟨"", "  ", "  ", "", "", ""⟩).2.2.2 (by decide) (by decide)
    exact h.1

/-! ## Row-loop lemmas -/

theorem rowStep_lastKnown (rc : RemoteCfg) (cfg : HeadersCfg) (s : St)
    (row : Row) :
    (rowStep rc cfg s row).1.lastKnown = markerUpdate s.lastKnown row := by
  simp only [rowStep]
  repeat' split
  all_goals rfl

theorem rowStep_skippedNoList (rc : RemoteCfg) (cfg : HeadersCfg) (s : St)
    (row : Row) (h : optTruthy (markerUpdate s.lastKnown row) = false) :
    (rowStep rc cfg s row).2 = Ev.skippedNoList := by
  simp [rowStep, h]

theorem rowStep_usedList (rc : RemoteCfg) (cfg : HeadersCfg) (s : St)
    (row : Row) :
    ((rowStep rc cfg s row).2).usedList
      = if optTruthy (markerUpdate s.lastKnown row) = true
        then markerUpdate s.lastKnown row else none := by
  cases hb : optTruthy (markerUpdate s.lastKnown row) with
  | false => simp [rowStep, hb, Ev.usedList]
  | true =>
      have hcol : (if (true : Bool) = true
          then markerUpdate s.lastKnown row else none)
          = markerUpdate s.lastKnown row := by
        simp
      rw [hcol]
      simp only [rowStep]
      simp only [hb]
      repeat' split
      all_goals
        first
          | (exact absurd trivial (by assumption))
          | simp [Ev.usedList, optTruthy_getD hb]

theorem runRows_cons (rc : RemoteCfg) (cfg : HeadersCfg) (s : St) (r : Row)
    (rest : List Row) :
    runRows rc cfg s (r :: rest)
      = ((runRows rc cfg (rowStep rc cfg s r).1 rest).1,
          (rowStep rc cfg s r).2
            :: (runRows rc cfg (rowStep rc cfg s r).1 rest).2) := rfl

theorem runRows_length (rc : RemoteCfg) (cfg : HeadersCfg) (s : St)
    (rows : List Row) :
    (runRows rc cfg s rows).2.length = rows.length := by
  induction rows generalizing s with
  | nil => rfl
  | cons r rest ih =>
      rw [runRows_cons]
      simp [ih]

theorem runRows_append (rc : RemoteCfg) (cfg : HeadersCfg) (s : St)
    (xs ys : List Row) :
    runRows rc cfg s (xs ++ ys)
      = ((runRows rc cfg (runRows rc cfg s xs).1 ys).1,
          (runRows rc cfg s xs).2
            ++ (runRows rc cfg (runRows rc cfg s xs).1 ys).2) := by
  induction xs generalizing s with
  | nil => simp [runRows]
  | cons r rest ih =>
      rw [List.cons_append, runRows_cons, runRows_cons, ih]
      rfl

theorem runRows_lastKnown (rc : RemoteCfg) (cfg : HeadersCfg) (s : St)
    (rows : List Row) :
    (runRows rc cfg s rows).1.lastKnown = lastMarker s.lastKnown rows := by
  induction rows generalizing s with
  | nil => rfl
  | cons r rest ih =>
      rw [runRows_cons]
      show (runRows rc cfg (rowStep rc cfg s r).1 rest).1.lastKnown = _
      rw [ih, rowStep_lastKnown]
      rfl

theorem markerUpdate_ne_empty {last : Option String} (row : Row)
    (h : last ≠ some "") : markerUpdate last row ≠ some "" := by
  unfold markerUpdate
  cases ht : optTruthy (if row.list_title = "" then none
      else some (jsTrim row.list_title)) with
  | false =>
      simp only [ht]
      simpa using h
  | true =>
      simp only [ht, if_true]
      intro he
      rw [he] at ht
      simp [optTruthy] at ht

theorem lastMarker_ne_empty {init : Option String} (rows : List Row)
    (h : init ≠ some "") : lastMarker init rows ≠ some "" := by
  induction rows generalizing init with
  | nil => exact h
  | cons r rest ih =>
      rw [lastMarker, List.foldl_cons]
      exact ih (markerUpdate_ne_empty r h)

/-! ## Claim C2: carry-forward of the effective list name -/

/-- C2 (confirmed): in the row loop the effective list name used by the row
at position `pre.length` (the row `r` in `pre ++ r :: post`) is the most
recent truthy, trimmed `list_title` value at or before that row — the row's
own cell counts first, then earlier rows, then the `lastKnownListTitle`
carried into the loop; when no such value exists the row is skipped with
`skippedNoList`.  The carried value that leaves the loop is exactly
`lastMarker` over all rows, and a cache refresh does not touch it, so the
value survives batch boundaries: a later batch starting with a row without a
list marker uses the previous batch's last-seen list name. -/
theorem runRows_effective_list_name (rc : RemoteCfg) (cfg : HeadersCfg)
    (s : St) (pre : List Row) (r : Row) (post : List Row)
    (hlk : s.lastKnown ≠ some "") :
    ((runRows rc cfg s (pre ++ r :: post)).2.get? pre.length
        = some ((rowStep rc cfg (runRows rc cfg s pre).1 r).2)) ∧
    (((rowStep rc cfg (runRows rc cfg s pre).1 r).2).usedList
        = markerUpdate (lastMarker s.lastKnown pre) r) ∧
    (markerUpdate (lastMarker s.lastKnown pre) r = none →
        (rowStep rc cfg (runRows rc cfg s pre).1 r).2 = Ev.skippedNoList) ∧
    ((runRows rc cfg s (pre ++ r :: post)).1.lastKnown
        = lastMarker s.lastKnown (pre ++ r :: post)) ∧
    ((refreshSt s).lastKnown = s.lastKnown) := by
  have hmarker : markerUpdate (lastMarker s.lastKnown pre) r ≠ some "" :=
    markerUpdate_ne_empty r (lastMarker_ne_empty pre hlk)
  have hlkpre : (runRows rc cfg s pre).1.lastKnown
      = lastMarker s.lastKnown pre := runRows_lastKnown rc cfg s pre
  refine ⟨?_, ?_, ?_, ?_, rfl⟩
  · rw [runRows_append]
    show ((runRows rc cfg s pre).2
        ++ (runRows rc cfg (runRows rc cfg s pre).1 (r :: post)).2).get?
          pre.length = _
    rw [List.get?_append_right (by simp [runRows_length]), runRows_length,
      runRows_cons]
    simp
  · rw [rowStep_usedList, hlkpre]
    cases hm : markerUpdate (lastMarker s.lastKnown pre) r with
    | none => simp [optTruthy]
    | some t =>
        have hne : t ≠ "" := by
          intro ht
          rw [ht] at hm
          exact hmarker hm
        simp [optTruthy_some_of_ne hne]
  · intro hm
    apply rowStep_skippedNoList
    rw [hlkpre, hm]
    rfl
  · exact runRows_lastKnown rc cfg s (pre ++ r :: post)

/-- Witness for `runRows_effective_list_name`: the second row carries no
list marker and uses `Work` from the first row; the carried value leaving
the loop is `Work`. -/
theorem runRows_effective_list_name_witness :
    (((rowStep ⟨fun _ _ => false, fun _ _ _ => false, fun _ => none⟩
          ⟨true, true, true, true⟩
          (runRows ⟨fun _ _ => false, fun _ _ _ => false, fun _ => none⟩
            ⟨true, true, true, true⟩ (initSt ⟨[], [], 0⟩)
            [⟨"Work", "task one", "", "", "", ""⟩]).1
          ⟨"", "task two", "", "", "", ""⟩).2).usedList = some "Work") ∧
      ((runRows ⟨fun _ _ => false, fun _ _ _ => false, fun _ => none⟩
          ⟨true, true, true, true⟩ (initSt ⟨[], [], 0⟩)
          ([⟨"Work", "task one", "", "", "", ""⟩]
            ++ [⟨"", "task two", "", "", "", ""⟩])).1.lastKnown
        = some "Work") := by
  have h := runRows_effective_list_name
    ⟨fun _ _ => false, fun _ _ _ => false, fun _ => none⟩
    ⟨true, true, true, true⟩ (initSt ⟨[], [], 0⟩)
    [⟨"Work", "task one", "", "", "", ""⟩]
    ⟨"", "task two", "", "", "", ""⟩ [] (by decide)
  refine ⟨?_, ?_⟩
  · rw [h.2.1]
    decide
  · rw [h.2.2.2.1]
    decide

/-! ## Claim C8: failures skip the row, never the batch -/

theorem resolveR_tasks (rc : RemoteCfg) (name : String) (cache : Cache)
    (r : Remote) : (resolveR rc name cache r).2.2.tasks = r.tasks := by
  unfold resolveR remoteCreate
  repeat' split
  all_goals rfl

theorem rowStep_outcome (rc : RemoteCfg) (cfg : HeadersCfg) (s : St)
    (row : Row) :
    ((rowStep rc cfg s row).1.report = s.report ∧
      (rowStep rc cfg s row).1.remote.tasks = s.remote.tasks ∧
      ∀ nm task, (rowStep rc cfg s row).2 ≠ Ev.created nm task) ∨
    (∃ nm task,
        (rowStep rc cfg s row).2 = Ev.created nm task ∧
        (rowStep rc cfg s row).1.report = bumpReport s.report nm task) := by
  simp only [rowStep]
  repeat' split
  all_goals
    first
      | (right
         exact ⟨_, _, rfl, rfl⟩)
      | (left
         exact ⟨rfl, resolveR_tasks rc _ s.cache s.remote,
           by intro nm task h; cases h⟩)
      | (left
         exact ⟨rfl, rfl, by intro nm task h; cases h⟩)

/-- C8 (confirmed): the batch row loop never aborts on an external-call
failure: it emits exactly one event per row; processing a row is always
followed by processing all remaining rows whatever the row's outcome; and a
row whose list resolution or task insert failed contributes nothing — the
report and the stream of created tasks are unchanged by that row. -/
theorem runRows_no_abort (rc : RemoteCfg) (cfg : HeadersCfg) (s : St)
    (rows : List Row) :
    ((runRows rc cfg s rows).2.length = rows.length) ∧
    (∀ r rest,
        runRows rc cfg s (r :: rest)
          = ((runRows rc cfg (rowStep rc cfg s r).1 rest).1,
              (rowStep rc cfg s r).2
                :: (runRows rc cfg (rowStep rc cfg s r).1 rest).2)) ∧
    (∀ r nm t, (rowStep rc cfg s r).2 = Ev.resolveFailed nm t →
        (rowStep rc cfg s r).1.report = s.report ∧
        (rowStep rc cfg s r).1.remote.tasks = s.remote.tasks) ∧
    (∀ r nm task, (rowStep rc cfg s r).2 = Ev.insertFailed nm task →
        (rowStep rc cfg s r).1.report = s.report ∧
        (rowStep rc cfg s r).1.remote.tasks = s.remote.tasks) := by
  refine ⟨runRows_length rc cfg s rows,
    fun r rest => runRows_cons rc cfg s r rest, ?_, ?_⟩
  · intro r nm t hev
    rcases rowStep_outcome rc cfg s r with ⟨h1, h2, _⟩ | ⟨nm', task', hev', _⟩
    · exact ⟨h1, h2⟩
    · rw [hev] at hev'
      cases hev'
  · intro r nm task hev
    rcases rowStep_outcome rc cfg s r with ⟨h1, h2, _⟩ | ⟨nm', task', hev', _⟩
    · exact ⟨h1, h2⟩
    · rw [hev] at hev'
      cases hev'

/-- Witness for `runRows_no_abort`: a batch whose first row fails to resolve
(the create is rejected and no remote match exists) still processes the
second row; the failing row leaves the report untouched. -/
theorem runRows_no_abort_witness :
    ((runRows ⟨fun _ _ => true, fun _ _ _ => false, fun _ => none⟩
        ⟨true, true, true, true⟩
        { cache := fun t => if t = "Done" then some "idD" else none,
          lastKnown := none, report := [],
          remote := ⟨[⟨"Done", "idD"⟩], [], 0⟩ }
        [⟨"New", "task a", "", "", "", ""⟩,
         ⟨"Done", "task b", "", "", "", ""⟩]).2.length = 2) ∧
      ((rowStep ⟨fun _ _ => true, fun _ _ _ => false, fun _ => none⟩
          ⟨true, true, true, true⟩
          { cache := fun t => if t = "Done" then some "idD" else none,
            lastKnown := none, report := [],
            remote := ⟨[⟨"Done", "idD"⟩], [], 0⟩ }
          ⟨"New", "task a", "", "", "", ""⟩).1.report = []) := by
  have h := runRows_no_abort ⟨fun _ _ => true, fun _ _ _ => false, fun _ => none⟩
    ⟨true, true, true, true⟩
    { cache := fun t => if t = "Done" then some "idD" else none,
      lastKnown := none, report := [],
      remote := ⟨[⟨"Done", "idD"⟩], [], 0⟩ }
    [⟨"New", "task a", "", "", "", ""⟩, ⟨"Done", "task b", "", "", "", ""⟩]
  refine ⟨h.1, ?_⟩
  exact (h.2.2.1 ⟨"New", "task a", "", "", "", ""⟩ "New" "task a" (by decide)).1

/-! ## Claim C10: report counters -/

theorem getStats_setStats_self (rep : List (String × Stats)) (k : String)
    (v : Stats) : getStats (setStats rep k v) k = some v := by
  induction rep with
  | nil => simp [setStats, getStats]
  | cons p rest ih =>
      by_cases hk : p.1 = k
      · simp [setStats, getStats, hk]
      · simp [setStats, getStats, hk, ih]

theorem getStats_setStats_ne (rep : List (String × Stats)) (k m : String)
    (v : Stats) (hne : m ≠ k) :
    getStats (setStats rep k v) m = getStats rep m := by
  induction rep with
  | nil => simp [setStats, getStats, Ne.symm hne]
  | cons p rest ih =>
      obtain ⟨a, b⟩ := p
      by_cases hk : a = k
      · subst hk
        simp [setStats, getStats, Ne.symm hne]
      · simp only [setStats, getStats, hk, if_neg, not_false_iff]
        by_cases hm : a = m
        · simp [hm]
        · simp [hm, ih]

theorem mem_setStats {rep : List (String × Stats)} {k : String} {v : Stats}
    {p : String × Stats} (hp : p ∈ setStats rep k v) :
    p = (k, v) ∨ p ∈ rep := by
  induction rep with
  | nil =>
      simp [setStats] at hp
      exact Or.inl hp
  | cons q rest ih =>
      obtain ⟨a, b⟩ := q
      by_cases hk : a = k
      · subst hk
        simp only [setStats, if_pos] at hp
        rcases List.mem_cons.mp hp with h1 | h1
        · exact Or.inl h1
        · exact Or.inr (List.mem_cons_of_mem _ h1)
      · simp only [setStats, hk, if_neg, not_false_iff] at hp
        rcases List.mem_cons.mp hp with h1 | h1
        · exact Or.inr (h1 ▸ List.mem_cons_self _ _)
        · rcases ih h1 with h2 | h2
          · exact Or.inl h2
          · exact Or.inr (List.mem_cons_of_mem _ h2)

theorem getStats_mem {rep : List (String × Stats)} {k : String} {v : Stats}
    (h : getStats rep k = some v) : (k, v) ∈ rep := by
  induction rep with
  | nil => simp [getStats] at h
  | cons p rest ih =>
      obtain ⟨a, b⟩ := p
      by_cases hk : a = k
      · subst hk
        simp only [getStats, if_pos] at h
        cases h
        exact List.mem_cons_self _ _
      · simp only [getStats, hk, if_neg, not_false_iff] at h
        exact List.mem_cons_of_mem _ (ih h)

theorem bumpReport_self (rep : List (String × Stats)) (nm : String)
    (task : Task) :
    getStats (bumpReport rep nm task) nm
      = some (if task.status = some "completed"
          then ⟨((getStats rep nm).getD ⟨0, 0, 0⟩).completed + 1,
                ((getStats rep nm).getD ⟨0, 0, 0⟩).needsAction,
                ((getStats rep nm).getD ⟨0, 0, 0⟩).total + 1⟩
          else ⟨((getStats rep nm).getD ⟨0, 0, 0⟩).completed,
                ((getStats rep nm).getD ⟨0, 0, 0⟩).needsAction + 1,
                ((getStats rep nm).getD ⟨0, 0, 0⟩).total + 1⟩) := by
  unfold bumpReport
  cases hg : getStats rep nm with
  | none =>
      simp only [hg]
      rw [getStats_setStats_self]
      by_cases hst : task.status = some "completed"
      · simp [hst, getStats_setStats_self]
      · simp [hst, getStats_setStats_self]
  | some v =>
      simp only [hg]
      by_cases hst : task.status = some "completed"
      · simp [hst, getStats_setStats_self]
      · simp [hst, getStats_setStats_self]

theorem bumpReport_other (rep : List (String × Stats)) (nm m : String)
    (task : Task) (hne : m ≠ nm) :
    getStats (bumpReport rep nm task) m = getStats rep m := by
  unfold bumpReport
  cases hg : getStats rep nm with
  | none => simp [getStats_setStats_ne _ _ _ _ hne]
  | some v => simp [getStats_setStats_ne _ _ _ _ hne]

theorem bumpReport_ok {rep : List (String × Stats)} (nm : String)
    (task : Task) (h : ReportOK rep) : ReportOK (bumpReport rep nm task) := by
  intro p hp
  unfold bumpReport at hp
  have hrep1 : ∀ q ∈ (match getStats rep nm with
      | none => setStats rep nm ⟨0, 0, 0⟩
      | some _ => rep),
      q.2.total = q.2.completed + q.2.needsAction := by
    intro q hq
    cases hg : getStats rep nm with
    | none =>
        rw [hg] at hq
        rcases mem_setStats hq with h1 | h1
        · rw [h1]
          rfl
        · exact h q h1
    | some v =>
        rw [hg] at hq
        exact h q hq
  rcases mem_setStats hp with h1 | h1
  · rw [h1]
    simp only
    have hst : ∀ w, (getStats (match getStats rep nm with
        | none => setStats rep nm ⟨0, 0, 0⟩
        | some _ => rep) nm) = some w →
        w.total = w.completed + w.needsAction := by
      intro w hw
      exact hrep1 (nm, w) (getStats_mem hw)
    cases hw : getStats (match getStats rep nm with
        | none => setStats rep nm ⟨0, 0, 0⟩
        | some _ => rep) nm with
    | none =>
        by_cases hc : task.status = some "completed" <;>
          simp [hw, hc, Option.getD]
    | some w =>
        have := hst w hw
        by_cases hc : task.status = some "completed" <;>
          simp [hw, hc, Option.getD] <;> omega
  · exact hrep1 p h1

theorem runRows_reportOK (rc : RemoteCfg) (cfg : HeadersCfg) (s : St)
    (rows : List Row) (h : ReportOK s.report) :
    ReportOK (runRows rc cfg s rows).1.report := by
  induction rows generalizing s with
  | nil => exact h
  | cons r rest ih =>
      rw [runRows_cons]
      show ReportOK (runRows rc cfg (rowStep rc cfg s r).1 rest).1.report
      apply ih
      rcases rowStep_outcome rc cfg s r with ⟨h1, _, _⟩ | ⟨nm, task, _, h1⟩
      · rw [h1]
        exact h
      · rw [h1]
        exact bumpReport_ok nm task h

/-- C10 (confirmed): the report is changed only by a successful remote task
creation (any row whose event is not `created` leaves it untouched); a
successful creation replaces it by `bumpReport`, which bumps `completed`
exactly when the submitted task's status is `completed` and `needsAction`
otherwise, always bumps `total`, and leaves every other list's counters
unchanged; the invariant `total = completed + needsAction` holds for every
entry at all times — it is preserved by every row and by whole batches
(persistence and reload of the report are the identity in the model). -/
theorem rowStep_report_invariant (rc : RemoteCfg) (cfg : HeadersCfg) (s : St)
    (row : Row) (nm : String) (task : Task) :
    (ReportOK s.report → ReportOK (rowStep rc cfg s row).1.report) ∧
    ((∀ n t, (rowStep rc cfg s row).2 ≠ Ev.created n t) →
        (rowStep rc cfg s row).1.report = s.report) ∧
    ((rowStep rc cfg s row).2 = Ev.created nm task →
        (rowStep rc cfg s row).1.report = bumpReport s.report nm task) ∧
    (getStats (bumpReport s.report nm task) nm
        = some (if task.status = some "completed"
            then ⟨((getStats s.report nm).getD ⟨0, 0, 0⟩).completed + 1,
                  ((getStats s.report nm).getD ⟨0, 0, 0⟩).needsAction,
                  ((getStats s.report nm).getD ⟨0, 0, 0⟩).total + 1⟩
            else ⟨((getStats s.report nm).getD ⟨0, 0, 0⟩).completed,
                  ((getStats s.report nm).getD ⟨0, 0, 0⟩).needsAction + 1,
                  ((getStats s.report nm).getD ⟨0, 0, 0⟩).total + 1⟩)) ∧
    (∀ m, m ≠ nm →
        getStats (bumpReport s.report nm task) m = getStats s.report m) ∧
    (∀ rows, ReportOK s.report →
        ReportOK (runRows rc cfg s rows).1.report) := by
  refine ⟨?_, ?_, ?_, bumpReport_self s.report nm task,
    fun m hm => bumpReport_other s.report nm m task hm,
    fun rows h => runRows_reportOK rc cfg s rows h⟩
  · intro h
    rcases rowStep_outcome rc cfg s row with ⟨h1, _, _⟩ | ⟨n, t, _, h1⟩
    · rw [h1]
      exact h
    · rw [h1]
      exact bumpReport_ok n t h
  · intro hnc
    rcases rowStep_outcome rc cfg s row with ⟨h1, _, _⟩ | ⟨n, t, hev, _⟩
    · exact h1
    · exact absurd hev (hnc n t)
  · intro hev
    rcases rowStep_outcome rc cfg s row with ⟨_, _, h3⟩ | ⟨n, t, hev', h1⟩
    · exact absurd hev (h3 nm task)
    · rw [hev] at hev'
      cases hev'
      exact h1

/-- Witness for `rowStep_report_invariant`: a successful creation of a
completed task in list `Work` bumps `completed` and `total`, and before the
row the invariant held of the empty report. -/
theorem rowStep_report_invariant_witness :
    ReportOK [] ∧
      (rowStep ⟨fun _ _ => false, fun _ _ _ => false, fun _ => none⟩
          ⟨true, true, true, true⟩
          { cache := fun t => if t = "Work" then some "id1" else none,
            lastKnown := none, report := [],
            remote := ⟨[⟨"Work", "id1"⟩], [], 0⟩ }
          ⟨"Work", "task done", "", "Completed ", "", ""⟩).1.report
        = [("Work", ⟨1, 0, 1⟩)] := by
  constructor
  · intro p hp
    cases hp
  · have h := (rowStep_report_invariant
        ⟨fun _ _ => false, fun _ _ _ => false, fun _ => none⟩
        ⟨true, true, true, true⟩
        { cache := fun t => if t = "Work" then some "id1" else none,
          lastKnown := none, report := [],
          remote := ⟨[⟨"Work", "id1"⟩], [], 0⟩ }
        ⟨"Work", "task done", "", "Completed ", "", ""⟩ "Work"
        ⟨"task done", some "completed", none, none⟩).2.2.1 (by decide)
    rw [h]
    decide

/-! ## Claim C1: resume equivalence (batch splitting is refinement-exact)

The key invariant: right after a cache refresh the cache agrees with the
remote enumeration (`CacheConsistent`), every row step preserves this, and
under it a refresh is the identity — so inserting extra batch boundaries
(each of which re-runs the refresh) cannot change anything. -/

theorem refreshCache_get (lists : List RemoteList) (c : Cache) (t : String) :
    refreshCache c lists t
      = match lastAssoc lists t with
        | some i => some i
        | none => c t := by
  induction lists generalizing c with
  | nil => rfl
  | cons l rest ih =>
      show refreshCache (setC c l.title l.id) rest t = _
      rw [ih]
      cases h : lastAssoc rest t with
      | some i => simp [lastAssoc, h]
      | none =>
          simp only [lastAssoc, h]
          unfold setC
          by_cases hlt : l.title = t
          · simp [hlt]
          · simp [hlt, Ne.symm hlt]

theorem refreshCache_consistent (lists : List RemoteList) (c : Cache) :
    CacheConsistent (refreshCache c lists) lists := by
  intro t i h
  rw [refreshCache_get]
  simp [h]

theorem refreshCache_id {lists : List RemoteList} {c : Cache}
    (hc : CacheConsistent c lists) : refreshCache c lists = c := by
  funext t
  rw [refreshCache_get]
  cases h : lastAssoc lists t with
  | none => rfl
  | some i => exact (hc t i h).symm

theorem refreshSt_id {s : St} (hc : CacheConsistent s.cache s.remote.lists) :
    refreshSt s = s := by
  unfold refreshSt
  rw [refreshCache_id hc]

theorem lastAssoc_mem {lists : List RemoteList} {t i : String}
    (h : lastAssoc lists t = some i) :
    ∃ l ∈ lists, l.title = t ∧ l.id = i := by
  induction lists with
  | nil => cases h
  | cons l rest ih =>
      rw [lastAssoc] at h
      cases hr : lastAssoc rest t with
      | some j =>
          simp only [hr] at h
          cases h
          obtain ⟨l', hl', ht', hi'⟩ := ih hr
          exact ⟨l', List.mem_cons_of_mem _ hl', ht', hi'⟩
      | none =>
          simp only [hr] at h
          by_cases hlt : l.title = t
          · rw [if_pos hlt] at h
            cases h
            exact ⟨l, List.mem_cons_self _ _, hlt, rfl⟩
          · rw [if_neg hlt] at h
            cases h

theorem lastAssoc_none {lists : List RemoteList} {t : String}
    (h : lastAssoc lists t = none) : ∀ l ∈ lists, ¬ l.title = t := by
  induction lists with
  | nil =>
      intro l hl
      cases hl
  | cons l rest ih =>
      rw [lastAssoc] at h
      cases hr : lastAssoc rest t with
      | some j =>
          rw [hr] at h
          simp at h
      | none =>
          simp only [hr] at h
          intro l' hl'
          rcases List.mem_cons.mp hl' with h1 | h1
          · subst h1
            intro hlt
            rw [if_pos hlt] at h
            cases h
          · exact ih hr l' h1

theorem lastAssoc_append (l1 l2 : List RemoteList) (t : String) :
    lastAssoc (l1 ++ l2) t
      = match lastAssoc l2 t with
        | some i => some i
        | none => lastAssoc l1 t := by
  induction l1 with
  | nil =>
      simp only [List.nil_append]
      cases h : lastAssoc l2 t <;> simp [h, lastAssoc]
  | cons l rest ih =>
      rw [List.cons_append, lastAssoc, ih, lastAssoc]
      cases h : lastAssoc l2 t <;> cases h2 : lastAssoc rest t <;>
        simp [h, h2]

theorem fresh_id_ne_empty (n : Nat) : ("L" ++ Nat.repr n) ≠ "" := by
  intro h
  have h2 := congrArg String.length h
  rw [String.length_append] at h2
  have e1 : ("L" : String).length = 1 := rfl
  have e2 : ("" : String).length = 0 := rfl
  omega

theorem resolveR_hit (rc : RemoteCfg) (name : String) (cache : Cache)
    (r : Remote) (hb : optTruthy (cache name) = true) :
    resolveR rc name cache r = (cache name, cache, r) := by
  unfold resolveR
  rw [if_pos hb]

theorem resolveR_create_ok (rc : RemoteCfg) (name : String) (cache : Cache)
    (r : Remote) (hb : optTruthy (cache name) = false)
    (hcf : rc.createFails r name = false) :
    resolveR rc name cache r
      = (some ("L" ++ Nat.repr r.counter),
          setC cache name ("L" ++ Nat.repr r.counter),
          { r with lists := r.lists ++ [⟨name, "L" ++ Nat.repr r.counter⟩],
                   counter := r.counter + 1 }) := by
  unfold resolveR remoteCreate
  rw [if_neg (by simp [hb]), if_neg (by simp [hcf])]
  simp only [resolveAfterCreate]
  rw [if_neg (fresh_id_ne_empty r.counter)]

theorem resolveR_create_err (rc : RemoteCfg) (name : String) (cache : Cache)
    (r : Remote) (hb : optTruthy (cache name) = false)
    (hcf : rc.createFails r name = true)
    (hfind : r.lists.find? (fun l => l.title = name) = none) :
    resolveR rc name cache r = (none, cache, r) := by
  unfold resolveR remoteCreate
  rw [if_neg (by simp [hb]), if_pos (by simp [hcf])]
  simp only [resolveAfterCreate, hfind]

theorem resolveR_consistent (rc : RemoteCfg) (name : String) {cache : Cache}
    {r : Remote} (hc : CacheConsistent cache r.lists)
    (hi : IdsNonEmpty r.lists) :
    CacheConsistent (resolveR rc name cache r).2.1
        (resolveR rc name cache r).2.2.lists ∧
      IdsNonEmpty (resolveR rc name cache r).2.2.lists := by
  cases hb : optTruthy (cache name) with
  | true =>
      rw [resolveR_hit rc name cache r hb]
      exact ⟨hc, hi⟩
  | false =>
      have hnone : lastAssoc r.lists name = none := by
        cases hla : lastAssoc r.lists name with
        | none => rfl
        | some i =>
            exfalso
            have hci := hc name i hla
            obtain ⟨l, hl, _, hid⟩ := lastAssoc_mem hla
            have hine : i ≠ "" := hid ▸ hi l hl
            rw [hci, optTruthy_some_of_ne hine] at hb
            cases hb
      cases hcf : rc.createFails r name with
      | true =>
          have hfind : r.lists.find? (fun l => l.title = name) = none := by
            rw [List.find?_eq_none]
            intro l hl
            simp [lastAssoc_none hnone l hl]
          rw [resolveR_create_err rc name cache r hb hcf hfind]
          exact ⟨hc, hi⟩
      | false =>
          rw [resolveR_create_ok rc name cache r hb hcf]
          refine ⟨?_, ?_⟩
          · intro t i hla
            rw [lastAssoc_append] at hla
            by_cases ht : name = t
            · have hsing : lastAssoc [⟨name, "L" ++ Nat.repr r.counter⟩] t
                  = some ("L" ++ Nat.repr r.counter) := by
                simp [lastAssoc, ht]
              rw [hsing] at hla
              cases hla
              show setC cache name ("L" ++ Nat.repr r.counter) t
                  = some ("L" ++ Nat.repr r.counter)
              unfold setC
              rw [if_pos ht.symm]
            · have hsing : lastAssoc [⟨name, "L" ++ Nat.repr r.counter⟩] t
                  = none := by
                simp [lastAssoc, ht]
              rw [hsing] at hla
              have hla' : lastAssoc r.lists t = some i := by simpa using hla
              have htn : t ≠ name := fun hh => ht hh.symm
              show setC cache name ("L" ++ Nat.repr r.counter) t = some i
              unfold setC
              rw [if_neg htn]
              exact hc t i hla'
          · intro l hl
            rcases List.mem_append.mp hl with h1 | h1
            · exact hi l h1
            · rcases List.mem_singleton.mp h1 with rfl
              exact fresh_id_ne_empty r.counter

theorem rowStep_consistent (rc : RemoteCfg) (cfg : HeadersCfg) {s : St}
    (row : Row) (hc : CacheConsistent s.cache s.remote.lists)
    (hi : IdsNonEmpty s.remote.lists) :
    CacheConsistent (rowStep rc cfg s row).1.cache
        (rowStep rc cfg s row).1.remote.lists ∧
      IdsNonEmpty (rowStep rc cfg s row).1.remote.lists := by
  simp only [rowStep]
  repeat' split
  all_goals
    first
      | exact ⟨hc, hi⟩
      | exact resolveR_consistent rc _ hc hi

theorem runRows_consistent (rc : RemoteCfg) (cfg : HeadersCfg) {s : St}
    (rows : List Row) (hc : CacheConsistent s.cache s.remote.lists)
    (hi : IdsNonEmpty s.remote.lists) :
    CacheConsistent (runRows rc cfg s rows).1.cache
        (runRows rc cfg s rows).1.remote.lists ∧
      IdsNonEmpty (runRows rc cfg s rows).1.remote.lists := by
  induction rows generalizing s with
  | nil => exact ⟨hc, hi⟩
  | cons r rest ih =>
      rw [runRows_cons]
      show CacheConsistent
          (runRows rc cfg (rowStep rc cfg s r).1 rest).1.cache
          (runRows rc cfg (rowStep rc cfg s r).1 rest).1.remote.lists ∧ _
      exact ih (rowStep_consistent rc cfg r hc hi).1
        (rowStep_consistent rc cfg r hc hi).2

theorem batchRun_nil_rows (rc : RemoteCfg) (cfg : HeadersCfg)
    (sizes : List Nat) (s : St) : batchRun rc cfg sizes [] s = s := by
  cases sizes with
  | nil => rfl
  | cons k ks => simp [batchRun]

theorem batchRun_eq_runRows (rc : RemoteCfg) (cfg : HeadersCfg)
    (sizes : List Nat) (rows : List Row) (s : St)
    (hsum : rows.length ≤ sizes.sum)
    (hc : CacheConsistent s.cache s.remote.lists)
    (hi : IdsNonEmpty s.remote.lists) :
    batchRun rc cfg sizes rows s = (runRows rc cfg s rows).1 := by
  induction sizes generalizing rows s with
  | nil =>
      have hz : rows = [] := by simpa using hsum
      subst hz
      rfl
  | cons k ks ih =>
      by_cases he : rows.isEmpty
      · have hz : rows = [] := by simpa [List.isEmpty_iff] using he
        subst hz
        simp [batchRun, runRows]
      · simp only [batchRun]
        rw [if_neg he, refreshSt_id hc]
        have hcc := runRows_consistent rc cfg (rows.take k) hc hi
        have hlen : (rows.drop k).length ≤ ks.sum := by
          rw [List.length_drop]
          simp only [List.sum_cons] at hsum
          omega
        rw [ih (rows.drop k) _ hlen hcc.1 hcc.2]
        conv_rhs => rw [← List.take_append_drop k rows]
        rw [runRows_append]

/-- C1 (confirmed): on a fresh run (empty checkpoint) over any fixed row
dataset, splitting the work into batches of arbitrary sizes (enough to cover
the data) yields exactly the same final report as one single pass — not just
up to ordering of list entries, but literally, since batch boundaries only
interleave cache refreshes that are the identity under the consistency
invariant.  The remote service is deterministic (a pure function of its own
state, arbitrary create/insert failure predicates) and the checkpoint data is
carried unchanged between batches, which renders the claims' premise that
neither is changed from outside; remote list ids are non-blank. -/
theorem batchRun_report_eq_onePass (rc : RemoteCfg) (cfg : HeadersCfg)
    (rows : List Row) (sizes : List Nat) (r0 : Remote)
    (hne : IdsNonEmpty r0.lists) (hsum : rows.length ≤ sizes.sum) :
    (batchRun rc cfg sizes rows (initSt r0)).report
      = (batchRun rc cfg [rows.length] rows (initSt r0)).report := by
  have main : ∀ szs : List Nat, rows.length ≤ szs.sum →
      batchRun rc cfg szs rows (initSt r0)
        = if rows.isEmpty then initSt r0
          else (runRows rc cfg (refreshSt (initSt r0)) rows).1 := by
    intro szs hs
    by_cases he : rows.isEmpty
    · rw [if_pos he]
      have hz : rows = [] := by simpa [List.isEmpty_iff] using he
      subst hz
      exact batchRun_nil_rows rc cfg szs _
    · rw [if_neg he]
      cases szs with
      | nil =>
          exfalso
          have hz : rows = [] := by simpa using hs
          rw [hz] at he
          simp at he
      | cons k ks =>
          simp only [batchRun]
          rw [if_neg he]
          have hc0 : CacheConsistent (refreshSt (initSt r0)).cache
              (refreshSt (initSt r0)).remote.lists :=
            refreshCache_consistent r0.lists _
          have hi0 : IdsNonEmpty (refreshSt (initSt r0)).remote.lists := hne
          have hcc := runRows_consistent rc cfg (rows.take k) hc0 hi0
          have hlen : (rows.drop k).length ≤ ks.sum := by
            rw [List.length_drop]
            simp only [List.sum_cons] at hs
            omega
          rw [batchRun_eq_runRows rc cfg ks (rows.drop k) _ hlen hcc.1 hcc.2]
          conv_rhs => rw [← List.take_append_drop k rows]
          rw [runRows_append]
  rw [main sizes hsum, main [rows.length] (by simp)]

/-- Witness for `batchRun_report_eq_onePass`: three rows split into batches
of sizes 2 and 5 versus one pass of 3, over an initially empty remote. -/
theorem batchRun_report_eq_onePass_witness :
    IdsNonEmpty ([] : List RemoteList) ∧
      ([⟨"Work", "task a", "", "", "", ""⟩,
        ⟨"", "task b", "", "completed", "", ""⟩,
        ⟨"Home", "task c", "", "", "", "x"⟩] : List Row).length ≤ [2, 5].sum ∧
      (batchRun ⟨fun _ _ => false, fun _ _ _ => false, fun _ => none⟩
          ⟨true, true, true, true⟩ [2, 5]
          [⟨"Work", "task a", "", "", "", ""⟩,
           ⟨"", "task b", "", "completed", "", ""⟩,
           ⟨"Home", "task c", "", "", "", "x"⟩]
          (initSt ⟨[], [], 0⟩)).report
        = (batchRun ⟨fun _ _ => false, fun _ _ _ => false, fun _ => none⟩
            ⟨true, true, true, true⟩ [3]
            [⟨"Work", "task a", "", "", "", ""⟩,
             ⟨"", "task b", "", "completed", "", ""⟩,
             ⟨"Home", "task c", "", "", "", "x"⟩]
            (initSt ⟨[], [], 0⟩)).report := by
  refine ⟨?_, by decide, ?_⟩
  · intro l hl
    cases hl
  · exact batchRun_report_eq_onePass
      ⟨fun _ _ => false, fun _ _ _ => false, fun _ => none⟩
      ⟨true, true, true, true⟩
      [⟨"Work", "task a", "", "", "", ""⟩,
       ⟨"", "task b", "", "completed", "", ""⟩,
       ⟨"Home", "task c", "", "", "", "x"⟩] [2, 5] ⟨[], [], 0⟩
      (fun l hl => by cases hl) (by decide)

end GTasks
